import Mathlib

/-!
Verification of the core of a Whitted-style ray tracer (src/main.cpp).

Modelling conventions, used throughout:

* C++ `float` arithmetic is idealised as exact rational arithmetic (`ℚ`).
* `glm::sqrt` is modelled by `ratSqrt`, a computable rational square root
  that is exact on perfect squares (lemma `ratSqrt_sq`); every theorem
  below whose truth depends on a concrete square-root value only ever
  evaluates it on perfect squares.
* `glm::pow` with a float exponent is modelled by `qpow`, exact for
  nonnegative integer exponents; no theorem below depends on its values
  for non-integer exponents.
* `glm::tan` composed with `glm::radians` is transcendental, so functions
  that use it (`GetRayThruPixel`) take it as an explicit function
  parameter `tanF`; theorems quantify over it.
* C++ out-parameters (`outIntersectionPoint`, `outIntersectionNormal`)
  are modelled by passing the current values in and returning the
  (possibly updated) values.
* The locals `IntersectionInfo ret` of `Raycast` are default-initialised
  in C++, which leaves `ret.t`, `ret.obj`, `ret.intersectionPoint` and
  `ret.intersectionNormal` indeterminate; the indeterminate initial
  values are modelled by an explicit `RcInit` parameter.
* `rand()` is modelled by drawing from an explicit stream (`List ℚ`) of
  already-normalised samples.
-/

set_option allowUnsafeReducibility true in
attribute [semireducible] Rat.add Rat.sub Rat.mul Rat.inv

set_option maxRecDepth 100000

/-- Exact 3-component rational vector, modelling `glm::vec3`. -/
structure Vec3 where
  x : ℚ
  y : ℚ
  z : ℚ
deriving DecidableEq, Repr

instance : Zero Vec3 := ⟨⟨0, 0, 0⟩⟩

instance : Add Vec3 := ⟨fun a b => ⟨a.x + b.x, a.y + b.y, a.z + b.z⟩⟩

instance : Neg Vec3 := ⟨fun a => ⟨-a.x, -a.y, -a.z⟩⟩

instance : Sub Vec3 := ⟨fun a b => ⟨a.x - b.x, a.y - b.y, a.z - b.z⟩⟩

/-- Componentwise product, modelling `glm` vector * vector. -/
instance : Mul Vec3 := ⟨fun a b => ⟨a.x * b.x, a.y * b.y, a.z * b.z⟩⟩

/-- Scalar multiplication, modelling `glm` scalar * vector. -/
instance : SMul ℚ Vec3 := ⟨fun q a => ⟨q * a.x, q * a.y, q * a.z⟩⟩

/-- Division of a vector by a scalar, modelling `glm` vector / scalar. -/
instance : HDiv Vec3 ℚ Vec3 := ⟨fun a q => ⟨a.x / q, a.y / q, a.z / q⟩⟩

/-- Dot product, modelling `glm::dot`. -/
def vdot (a b : Vec3) : ℚ := a.x * b.x + a.y * b.y + a.z * b.z

/-- Cross product, modelling `glm::cross`. -/
def vcross (a b : Vec3) : Vec3 :=
  ⟨a.y * b.z - a.z * b.y, a.z * b.x - a.x * b.z, a.x * b.y - a.y * b.x⟩

/-- Newton iteration for the integer square root, with explicit fuel so
that it is structurally recursive (and hence evaluates inside proofs);
with enough fuel it coincides with `Nat.sqrt.iter` (lemma `sqrtIter_eq`). -/
def sqrtIter (n : ℕ) : ℕ → ℕ → ℕ
  | 0, guess => guess
  | fuel + 1, guess =>
    let next := (guess + n / guess) / 2
    if next < guess then sqrtIter n fuel next else guess

/-- Integer square root, equal to `Nat.sqrt` (lemma `natSqrt_eq`) but
structurally recursive. -/
def natSqrt (n : ℕ) : ℕ := if n ≤ 1 then n else sqrtIter n n (n / 2)

/-- Computable rational square root: exact on ratios of perfect squares
(see `ratSqrt_sq`), an under-approximation elsewhere.  Models the exact
real `glm::sqrt` in the idealised arithmetic; all theorems that depend on
a concrete square-root value apply it to perfect squares only. -/
def ratSqrt (q : ℚ) : ℚ := (natSqrt q.num.toNat : ℚ) / (natSqrt q.den : ℚ)

/-- `glm::normalize`: divide a vector by its length. -/
def vnormalize (v : Vec3) : Vec3 := v / ratSqrt (vdot v v)

/-- `glm::distance`: length of the difference. -/
def vdistance (a b : Vec3) : ℚ := ratSqrt (vdot (b - a) (b - a))

/-- `glm::reflect i n = i - 2 (n . i) n`. -/
def vreflect (i n : Vec3) : Vec3 := i - (2 * vdot n i) • n

/-- `glm::clamp` on scalars. -/
def qclamp (c lo hi : ℚ) : ℚ := min (max c lo) hi

/-- Models `glm::pow` on the idealised scalar field: exact for
nonnegative integer exponents (`b ^ e`); a placeholder elsewhere.  No
theorem in this file depends on its values at non-integer exponents. -/
def qpow (b e : ℚ) : ℚ := if 0 ≤ e.num ∧ e.den = 1 then b ^ e.num.toNat else 0

/-- 4-component vector, modelling `glm::vec4` (used for light positions). -/
structure Vec4 where
  x : ℚ
  y : ℚ
  z : ℚ
  w : ℚ
deriving DecidableEq, Repr

/-- `glm::vec3(v4)`: truncation to the first three components. -/
def Vec4.xyz (v : Vec4) : Vec3 := ⟨v.x, v.y, v.z⟩

/-- Negation of a `glm::vec4`; `glm::vec3(-v)` is `(-v).xyz`. -/
def Vec4.negV (v : Vec4) : Vec4 := ⟨-v.x, -v.y, -v.z, -v.w⟩

/-- `const int NO_INTERSECTION(-1.0f)`. -/
def NO_INTERSECTION : ℚ := -1

/-- `const glm::vec3 BACKGROUND_COLOR(0.0f, 0.0f, 0.0f)`. -/
def BACKGROUND_COLOR : Vec3 := ⟨0, 0, 0⟩

/-- `const float SHADOW_BIAS(0.001f)`. -/
def SHADOW_BIAS : ℚ := 1 / 1000

/-- `const float REFLECTION_BIAS(0.001f)`. -/
def REFLECTION_BIAS : ℚ := 1 / 1000

/-- `const float REFLECTIVITY_CONSTANT(128.0f)`. -/
def REFLECTIVITY_CONSTANT : ℚ := 128

structure Ray where
  origin : Vec3
  direction : Vec3
deriving DecidableEq, Repr

structure Material where
  ambient : Vec3
  diffuse : Vec3
  specular : Vec3
  shininess : ℚ
deriving DecidableEq, Repr

structure Sphere where
  material : Material
  center : Vec3
  radius : ℚ
deriving DecidableEq, Repr

structure Triangle where
  material : Material
  A : Vec3
  B : Vec3
  C : Vec3
deriving DecidableEq, Repr

/-- The two concrete subclasses of the abstract `SceneObject`. -/
inductive SceneObject where
  | sphere (s : Sphere)
  | triangle (t : Triangle)
deriving DecidableEq, Repr

def SceneObject.material : SceneObject → Material
  | SceneObject.sphere s => s.material
  | SceneObject.triangle t => t.material

/-- The value held by the local `s` at the end of `Sphere::Intersect`
(the returned distance), translated branch by branch. -/
def Sphere.sVal (sph : Sphere) (incomingRay : Ray) : ℚ :=
  let m := incomingRay.origin - sph.center
  let b := vdot m incomingRay.direction
  let c := vdot m m - sph.radius * sph.radius
  let discriminant := b * b - c
  if discriminant = 0 then -b
  else if 0 < discriminant then
    let t1 := -b + ratSqrt discriminant
    let t2 := -b - ratSqrt discriminant
    if 0 < t1 ∨ 0 < t2 then (if 0 < t1 ∧ t1 < t2 then t1 else t2)
    else NO_INTERSECTION
  else NO_INTERSECTION

/-- `Sphere::Intersect`.  `p` and `n` are the incoming values of the
out-parameters; the result carries the returned distance and the
out-parameter values after the call (written iff `s != NO_INTERSECTION`). -/
def Sphere.Intersect (sph : Sphere) (incomingRay : Ray) (p n : Vec3) :
    ℚ × Vec3 × Vec3 :=
  let s := sph.sVal incomingRay
  if s ≠ NO_INTERSECTION then
    let pt := incomingRay.origin + s • incomingRay.direction
    (s, pt, vnormalize (pt - sph.center))
  else (s, p, n)

/-- `glm::vec3 n(glm::cross(B - A, C - A))` of `Triangle::Intersect`. -/
def Triangle.nVal (tri : Triangle) : Vec3 :=
  vcross (tri.B - tri.A) (tri.C - tri.A)

/-- `glm::vec3 e(glm::cross(-D, O - A))` of `Triangle::Intersect`. -/
def Triangle.eVal (tri : Triangle) (incomingRay : Ray) : Vec3 :=
  vcross (-incomingRay.direction) (incomingRay.origin - tri.A)

/-- `float f(glm::dot(-D, n))` of `Triangle::Intersect`. -/
def Triangle.fVal (tri : Triangle) (incomingRay : Ray) : ℚ :=
  vdot (-incomingRay.direction) tri.nVal

/-- `float t(glm::dot(O - A, n) / f)` of `Triangle::Intersect`. -/
def Triangle.tVal (tri : Triangle) (incomingRay : Ray) : ℚ :=
  vdot (incomingRay.origin - tri.A) tri.nVal / tri.fVal incomingRay

/-- `float u(glm::dot(C - A, e) / f)` of `Triangle::Intersect`. -/
def Triangle.uVal (tri : Triangle) (incomingRay : Ray) : ℚ :=
  vdot (tri.C - tri.A) (tri.eVal incomingRay) / tri.fVal incomingRay

/-- `float v(-glm::dot(B - A, e) / f)` of `Triangle::Intersect`. -/
def Triangle.vVal (tri : Triangle) (incomingRay : Ray) : ℚ :=
  -vdot (tri.B - tri.A) (tri.eVal incomingRay) / tri.fVal incomingRay

/-- The value held by the local `s` at the end of `Triangle::Intersect`:
`t` when `f > 0 and t > 0 and u >= 0 and v >= 0 and u + v <= 1`. -/
def Triangle.sVal (tri : Triangle) (incomingRay : Ray) : ℚ :=
  if 0 < tri.fVal incomingRay ∧ 0 < tri.tVal incomingRay ∧
      0 ≤ tri.uVal incomingRay ∧ 0 ≤ tri.vVal incomingRay ∧
      tri.uVal incomingRay + tri.vVal incomingRay ≤ 1
  then tri.tVal incomingRay else NO_INTERSECTION

/-- `Triangle::Intersect` (out-parameters written iff
`s != NO_INTERSECTION`; the point uses `t`, the normal `normalize(n)`). -/
def Triangle.Intersect (tri : Triangle) (incomingRay : Ray) (p n : Vec3) :
    ℚ × Vec3 × Vec3 :=
  let s := tri.sVal incomingRay
  if s ≠ NO_INTERSECTION then
    (s, incomingRay.origin + tri.tVal incomingRay • incomingRay.direction,
      vnormalize tri.nVal)
  else (s, p, n)

/-- Virtual dispatch of `SceneObject::Intersect`. -/
def SceneObject.Intersect (o : SceneObject) (incomingRay : Ray) (p n : Vec3) :
    ℚ × Vec3 × Vec3 :=
  match o with
  | SceneObject.sphere s => s.Intersect incomingRay p n
  | SceneObject.triangle t => t.Intersect incomingRay p n

/-- The distance returned by `Intersect`; it does not depend on the
incoming out-parameter values (lemma `intersect_char`). -/
def intersectDist (o : SceneObject) (ray : Ray) : ℚ :=
  (o.Intersect ray 0 0).1

/-- The intersection point written by `Intersect` when it reports one. -/
def intersectPoint (o : SceneObject) (ray : Ray) : Vec3 :=
  (o.Intersect ray 0 0).2.1

/-- The intersection normal written by `Intersect` when it reports one. -/
def intersectNormal (o : SceneObject) (ray : Ray) : Vec3 :=
  (o.Intersect ray 0 0).2.2

structure Camera where
  position : Vec3
  lookTarget : Vec3
  globalUp : Vec3
  fovY : ℚ
  focalLength : ℚ
  imageWidth : ℤ
  imageHeight : ℤ
deriving DecidableEq, Repr

/-- A light; `position.w = 1` marks a point light (`POINT_LIGHT`),
`position.w = 0` a directional light (`DIRECTIONAL_LIGHT`). -/
structure Light where
  position : Vec4
  ambient : Vec3
  diffuse : Vec3
  specular : Vec3
  constant : ℚ
  linear : ℚ
  quadratic : ℚ
deriving DecidableEq, Repr

structure IntersectionInfo where
  incomingRay : Ray
  t : ℚ
  obj : Option SceneObject
  intersectionPoint : Vec3
  intersectionNormal : Vec3
deriving DecidableEq, Repr

structure Scene where
  objects : List SceneObject
  lights : List Light
deriving DecidableEq, Repr

/-- The values found in the default-initialised (hence indeterminate)
fields of `Raycast`'s local `IntersectionInfo ret` before the loop runs.
C++ leaves them uninitialised; they are threaded explicitly so that
theorems can quantify over them. -/
structure RcInit where
  t : ℚ
  obj : Option SceneObject
  point : Vec3
  normal : Vec3
deriving DecidableEq, Repr

/-- Loop state of `Raycast`: the fields of `ret` plus the out-parameter
slots of `infoTemp` that persist across iterations. -/
structure RcState where
  t : ℚ
  obj : Option SceneObject
  point : Vec3
  normal : Vec3
  tmpPoint : Vec3
  tmpNormal : Vec3
deriving DecidableEq, Repr

/-- One iteration `i > 0` of the `Raycast` loop: overwrite `ret` when
`(infoTemp.t > 0 and ret.t > 0 and infoTemp.t < ret.t) or
(ret.t == NO_INTERSECTION and infoTemp.t > 0)`. -/
def raycastStep (ray : Ray) (st : RcState) (o : SceneObject) : RcState :=
  let r := o.Intersect ray st.tmpPoint st.tmpNormal
  if (0 < r.1 ∧ 0 < st.t ∧ r.1 < st.t) ∨ (st.t = NO_INTERSECTION ∧ 0 < r.1)
  then ⟨r.1, some o, r.2.1, r.2.2, r.2.1, r.2.2⟩
  else ⟨st.t, st.obj, st.point, st.normal, r.2.1, r.2.2⟩

/-- `Raycast`: iteration `i = 0` always sets `ret.t` and sets the
object/point/normal exactly when `infoTemp.t != NO_INTERSECTION`;
later iterations use `raycastStep`.  `u` holds the indeterminate
initial values of `ret`'s fields (returned unchanged when the scene has
no objects, since C++ never writes them in that case). -/
def Raycast (u : RcInit) (ray : Ray) (scene : Scene) : IntersectionInfo :=
  match scene.objects with
  | [] => ⟨ray, u.t, u.obj, u.point, u.normal⟩
  | o :: os =>
    let r := o.Intersect ray 0 0
    let st0 : RcState :=
      if r.1 ≠ NO_INTERSECTION
      then ⟨r.1, some o, r.2.1, r.2.2, r.2.1, r.2.2⟩
      else ⟨r.1, none, u.point, u.normal, r.2.1, r.2.2⟩
    let fin := os.foldl (raycastStep ray) st0
    ⟨ray, fin.t, fin.obj, fin.point, fin.normal⟩

/-- The object the specification demands from a raycast (used to state
claim C1): the first object in the list attaining the smallest strictly
positive intersection distance, if any object intersects. -/
def firstClosestHit (ray : Ray) : List SceneObject → Option SceneObject
  | [] => none
  | o :: os =>
    match firstClosestHit ray os with
    | none => if 0 < intersectDist o ray then some o else none
    | some o1 =>
      if 0 < intersectDist o ray ∧ intersectDist o ray ≤ intersectDist o1 ray
      then some o else some o1

/-- The body of the per-light loop of `RayTrace`, translated statement
by statement.  `recurse` is the recursive `RayTrace` call at depth
`maxDepth - 1`; `withRefl` is the value of the guard `maxDepth > 1`. -/
def lightContrib (u : RcInit) (scene : Scene) (camera : Camera)
    (info : IntersectionInfo) (ob : SceneObject)
    (recurse : Ray → Vec3) (withRefl : Bool) (l : Light) : Vec3 :=
  let ambient := ob.material.ambient * (l.ambient / (scene.lights.length : ℚ))
  let directionToLight :=
    if l.position.w = 1
    then vnormalize (l.position.xyz - info.intersectionPoint)
    else vnormalize l.position.negV.xyz
  let diffuseStrength := max (vdot directionToLight info.intersectionNormal) 0
  let diffuse := diffuseStrength • (ob.material.diffuse * l.diffuse)
  let reflectedLight := vreflect (-directionToLight) info.intersectionNormal
  let specularStrength :=
    qpow (max (vdot reflectedLight
      (vnormalize (camera.position - info.intersectionPoint))) 0)
      ob.material.shininess
  let specular := specularStrength • (ob.material.specular * l.specular)
  let attenuation : ℚ :=
    if l.position.w ≠ 0 then
      let distanceToLight := vdistance info.intersectionPoint l.position.xyz
      1 / (l.constant + l.linear * distanceToLight
        + l.quadratic * distanceToLight * distanceToLight)
    else 1
  let shadowRay : Ray :=
    ⟨info.intersectionPoint + SHADOW_BIAS • info.intersectionNormal,
      directionToLight⟩
  let shadowingInfo := Raycast u shadowRay scene
  let distanceToLight :=
    if l.position.w = 1
    then vdistance shadowRay.origin l.position.xyz
    else vdistance shadowRay.origin ((999 : ℚ) • shadowRay.direction)
  let reflContribution : Vec3 :=
    if withRefl then
      let reflRay : Ray :=
        ⟨info.intersectionPoint + REFLECTION_BIAS • info.intersectionNormal,
          vreflect info.incomingRay.direction info.intersectionNormal⟩
      ((ob.material.shininess / REFLECTIVITY_CONSTANT) • recurse reflRay)
    else 0
  ambient +
    (if shadowingInfo.obj = none ∨
        (shadowingInfo.obj ≠ none ∧
          vdistance shadowRay.origin shadowingInfo.intersectionPoint
            > distanceToLight)
     then attenuation • (diffuse + specular) + reflContribution
     else 0)

/-- The per-light accumulation loop of `RayTrace`. -/
def lightLoop (u : RcInit) (scene : Scene) (camera : Camera)
    (info : IntersectionInfo) (ob : SceneObject)
    (recurse : Ray → Vec3) (withRefl : Bool) :
    List Light → Vec3 → Vec3
  | [], color => color
  | l :: ls, color =>
    lightLoop u scene camera info ob recurse withRefl ls
      (color + lightContrib u scene camera info ob recurse withRefl l)

/-- The body of `RayTrace` for one depth level: resolve the nearest hit
and run the per-light loop starting from the background color. -/
def rayTraceCore (u : RcInit) (scene : Scene) (camera : Camera)
    (recurse : Ray → Vec3) (withRefl : Bool) (ray : Ray) : Vec3 :=
  let intersectionInfo := Raycast u ray scene
  match intersectionInfo.obj with
  | none => BACKGROUND_COLOR
  | some ob =>
    lightLoop u scene camera intersectionInfo ob recurse withRefl
      scene.lights BACKGROUND_COLOR

/-- `RayTrace` at a nonnegative depth (structural fuel).  At fuel 0 or 1
the guard `maxDepth > 1` is false, so no reflection ray is traced. -/
def RayTraceGo (u : RcInit) (scene : Scene) (camera : Camera) :
    ℕ → Ray → Vec3
  | 0 => rayTraceCore u scene camera (fun _ => 0) false
  | 1 => rayTraceCore u scene camera (fun _ => 0) false
  | n + 2 =>
    rayTraceCore u scene camera (RayTraceGo u scene camera (n + 1)) true

/-- `RayTrace` with the C++ `int maxDepth`.  The C++ recursion fires only
under `maxDepth > 1` and passes `maxDepth - 1`, which `Int.toNat`
preserves: for `maxDepth ≤ 1` (including 0 and negatives) `toNat ≤ 1`
and no recursion happens, and for `maxDepth ≥ 2` the fuel equals
`maxDepth` and decreases by one per bounce. -/
def RayTrace (u : RcInit) (ray : Ray) (scene : Scene) (camera : Camera)
    (maxDepth : ℤ) : Vec3 :=
  RayTraceGo u scene camera maxDepth.toNat ray

/-- `GetRayThruPixel`.  `tanF` models the transcendental map
`fun d => glm::tan (glm::radians d)`; since `radians` is linear,
`glm::tan (glm::radians fovY / 2) = tanF (fovY / 2)`.  `rng` is the
stream of `rand() / RAND_MAX` samples; the returned stream is the part
not consumed. -/
def GetRayThruPixel (tanF : ℚ → ℚ) (camera : Camera)
    (pixelX pixelY : ℤ) (aa : Bool) (rng : List ℚ) : Ray × List ℚ :=
  let cameraLookDirection := vnormalize (camera.lookTarget - camera.position)
  let viewportHeight := 2 * camera.focalLength * tanF (camera.fovY / 2)
  let viewportWidth :=
    (camera.imageWidth : ℚ) * viewportHeight / (camera.imageHeight : ℚ)
  let u := vnormalize (vcross cameraLookDirection camera.globalUp)
  let v := vnormalize (vcross u cameraLookDirection)
  let viewportLowerLeft :=
    camera.position + camera.focalLength • cameraLookDirection
      + (-(viewportWidth / 2)) • u + (-(viewportHeight / 2)) • v
  let offsets : (ℚ × ℚ) × List ℚ :=
    if aa then ((rng.headD 0, rng.tail.headD 0), rng.tail.tail)
    else ((1 / 2, 1 / 2), rng)
  let s := ((pixelX : ℚ) + offsets.1.1) * viewportWidth / (camera.imageWidth : ℚ)
  let t := ((pixelY : ℚ) + offsets.1.2) * viewportHeight / (camera.imageHeight : ℚ)
  let pixelPosition := viewportLowerLeft + s • u + t • v
  (⟨camera.position, vnormalize (pixelPosition - camera.position)⟩, offsets.2)

/-- The non-anti-aliased branch of the per-pixel loop in `main`:
`Ray ray(GetRayThruPixel(camera, x, image.height - y - 1));`
`glm::vec3 color(RayTrace(ray, scene, camera, maxDepth));` -/
def renderPixelNoAA (tanF : ℚ → ℚ) (u : RcInit) (scene : Scene)
    (camera : Camera) (maxDepth : ℤ) (x y : ℤ) (rng : List ℚ) : Vec3 :=
  let r := GetRayThruPixel tanF camera x (camera.imageHeight - y - 1) false rng
  RayTrace u r.1 scene camera maxDepth

/-- The output raster; bytes are modelled as naturals in `[0, 255]`. -/
structure Image where
  data : List ℕ
  width : ℕ
  height : ℕ
deriving DecidableEq, Repr

/-- `Image::ToChar`: clamp to `[0, 1]`, scale by 255, truncate
(`static_cast<unsigned char>`, i.e. floor on the nonnegative result). -/
def Image.ToChar (c : ℚ) : ℕ := (Int.toNat ⌊qclamp c 0 1 * 255⌋)

/-- `Image::SetColor`: write the three channel bytes at linear index
`(y * width + x) * 3`. -/
def Image.SetColor (img : Image) (x y : ℕ) (color : Vec3) : Image :=
  let index := (y * img.width + x) * 3
  { img with data :=
      ((img.data.set index (Image.ToChar color.x)).set (index + 1)
        (Image.ToChar color.y)).set (index + 2) (Image.ToChar color.z) }

/-- Sum of a list of vectors (for stating the per-light decomposition). -/
def vsum (ls : List Vec3) : Vec3 := ls.foldr (fun a b => a + b) 0

/-! Concrete fixtures used by counterexamples and witnesses. -/

/-- An all-black material. -/
def matBlack : Material := ⟨⟨0, 0, 0⟩, ⟨0, 0, 0⟩, ⟨0, 0, 0⟩, 128⟩

/-- A purely diffuse white material. -/
def matDiffuse : Material := ⟨⟨0, 0, 0⟩, ⟨1, 1, 1⟩, ⟨0, 0, 0⟩, 128⟩

/-- Canonical (arbitrary) value for the indeterminate `ret` fields. -/
def rcZero : RcInit := ⟨0, none, 0, 0⟩

/-- Garbage values for the indeterminate `ret` fields, exhibiting the
uninitialised-read behaviour of `Raycast` on an empty object list. -/
def rcGarbage : RcInit :=
  ⟨7, some (SceneObject.sphere ⟨matBlack, ⟨9, 9, 9⟩, 1⟩), ⟨1, 2, 3⟩, ⟨4, 5, 6⟩⟩

/-- The ray from the origin along +z. -/
def rayZ : Ray := ⟨⟨0, 0, 0⟩, ⟨0, 0, 1⟩⟩

/-- Sphere tangent to the line of `rayZ` behind its origin: its
quadratic has discriminant 0 and root -2. -/
def sphTangentBehind : Sphere := ⟨matBlack, ⟨1, 0, -2⟩, 1⟩

/-- Sphere centred at (0,0,5) with radius 1: `rayZ` enters it at t = 4. -/
def sphFront : Sphere := ⟨matBlack, ⟨0, 0, 5⟩, 1⟩

/-- Two-sphere scene for the C1 counterexample. -/
def sceneTwoSpheres : Scene :=
  ⟨[SceneObject.sphere sphTangentBehind, SceneObject.sphere sphFront], []⟩

/-- Sphere containing the origin of `rayZ` (center (0,0,1), radius 3):
roots 4 and -2, only 4 positive. -/
def sphAround : Sphere := ⟨matBlack, ⟨0, 0, 1⟩, 3⟩

/-- Triangle A=(0,0,0), B=(1,0,0), C=(0,1,0) of the spec's example. -/
def triUnit : Triangle := ⟨matBlack, ⟨0, 0, 0⟩, ⟨1, 0, 0⟩, ⟨0, 1, 0⟩⟩

/-- Ray from (1/4, 1/4, 1) toward (0,0,-1) of the spec's example. -/
def rayTri : Ray := ⟨⟨1 / 4, 1 / 4, 1⟩, ⟨0, 0, -1⟩⟩

/-- A ray parallel to the plane of `triUnit` (so `f = 0`). -/
def rayPar : Ray := ⟨⟨0, 0, 1⟩, ⟨1, 0, 0⟩⟩

/-- Large diffuse floor triangle in the plane z = 0 (normal +z). -/
def triFloor : Triangle :=
  ⟨matDiffuse, ⟨-10, -10, 0⟩, ⟨10, -10, 0⟩, ⟨-10, 10, 0⟩⟩

/-- Occluder sphere far along +z, centred at (0,0,1500), radius 1. -/
def sphOccluder : Sphere := ⟨matBlack, ⟨0, 0, 1500⟩, 1⟩

/-- Directional light (w = 0) shining along -z, no ambient, white
diffuse and specular. -/
def lightDown : Light :=
  ⟨⟨0, 0, -1, 0⟩, ⟨0, 0, 0⟩, ⟨1, 1, 1⟩, ⟨1, 1, 1⟩, 1, 0, 0⟩

/-- Scene for the C5 counterexample: the floor triangle, the far
occluder on the shadow ray, and the directional light. -/
def sceneShadow : Scene :=
  ⟨[SceneObject.triangle triFloor, SceneObject.sphere sphOccluder],
    [lightDown]⟩

/-- Camera at (0,0,5) looking at the origin. -/
def camFive : Camera := ⟨⟨0, 0, 5⟩, ⟨0, 0, 0⟩, ⟨0, 1, 0⟩, 90, 1, 4, 4⟩

/-- Primary ray of the C5 counterexample, from the camera straight down
the z axis; it hits `triFloor` at t = 5, point (0,0,0), normal (0,0,1). -/
def rayDown : Ray := ⟨⟨0, 0, 5⟩, ⟨0, 0, -1⟩⟩

/-- Scene with no objects (and one light), for C7. -/
def sceneNoObjects : Scene := ⟨[], [lightDown]⟩

/-- Scene with one sphere and no lights, for C9. -/
def sceneNoLights : Scene := ⟨[SceneObject.sphere sphFront], []⟩

/-- Degenerate camera: look-direction (0,1,0) parallel to global up. -/
def camDeg : Camera := ⟨⟨0, 0, 0⟩, ⟨0, 1, 0⟩, ⟨0, 1, 0⟩, 90, 1, 2, 2⟩

/-- An arbitrary concrete stand-in for the tangent function. -/
def tanOne : ℚ → ℚ := fun _ => 1

/-- A 1-by-1 black image. -/
def imgOne : Image := ⟨[0, 0, 0], 1, 1⟩

/-- Point light at (0,0,3) (w = 1), no ambient, white diffuse and
specular, constant attenuation 1. -/
def lightPoint : Light :=
  ⟨⟨0, 0, 3, 1⟩, ⟨0, 0, 0⟩, ⟨1, 1, 1⟩, ⟨1, 1, 1⟩, 1, 0, 0⟩

/-- Scene with the floor triangle and one point light (no occluder). -/
def scenePoint : Scene := ⟨[SceneObject.triangle triFloor], [lightPoint]⟩

/-- The `ret` fields of a `Raycast` loop state (the part returned). -/
def retOf (st : RcState) : ℚ × Option SceneObject × Vec3 × Vec3 :=
  (st.t, st.obj, st.point, st.normal)

/-- The `ret` fields describing a hit on object `o`. -/
def hitQuad (ray : Ray) (o : SceneObject) : ℚ × Option SceneObject × Vec3 × Vec3 :=
  (intersectDist o ray, some o, intersectPoint o ray, intersectNormal o ray)

/-! Basic vector algebra lemmas. -/

theorem Vec3.zero_def : (0 : Vec3) = ⟨0, 0, 0⟩ := rfl

theorem Vec3.add_def (a b : Vec3) : a + b = ⟨a.x + b.x, a.y + b.y, a.z + b.z⟩ := rfl

theorem Vec3.smul_def (q : ℚ) (a : Vec3) : q • a = ⟨q * a.x, q * a.y, q * a.z⟩ := rfl

theorem Vec3.add_assoc (a b c : Vec3) : a + b + c = a + (b + c) := by
  simp only [Vec3.add_def, Vec3.mk.injEq]
  refine ⟨?_, ?_, ?_⟩ <;> ring

theorem Vec3.add_comm (a b : Vec3) : a + b = b + a := by
  simp only [Vec3.add_def, Vec3.mk.injEq]
  refine ⟨?_, ?_, ?_⟩ <;> ring

theorem Vec3.add_zero (a : Vec3) : a + 0 = a := by
  simp [Vec3.add_def, Vec3.zero_def]

theorem Vec3.zero_add (a : Vec3) : 0 + a = a := by
  simp [Vec3.add_def, Vec3.zero_def]

theorem Vec3.smul_zero (q : ℚ) : q • (0 : Vec3) = 0 := by
  simp [Vec3.smul_def, Vec3.zero_def]

theorem vcross_zero_left (a : Vec3) : vcross 0 a = 0 := by
  simp [vcross, Vec3.zero_def]

theorem sqrtIter_eq (n : ℕ) : ∀ (fuel guess : ℕ), guess ≤ fuel →
    sqrtIter n fuel guess = Nat.sqrt.iter n guess := by
  intro fuel
  induction fuel with
  | zero =>
    intro guess hg
    have hg0 : guess = 0 := Nat.le_zero.mp hg
    subst hg0
    unfold Nat.sqrt.iter
    simp [sqrtIter]
  | succ fuel ih =>
    intro guess hg
    unfold Nat.sqrt.iter
    simp only [sqrtIter]
    by_cases h : (guess + n / guess) / 2 < guess
    · simp only [if_pos h, dif_pos h]
      exact ih _ (by omega)
    · simp only [if_neg h, dif_neg h]

theorem natSqrt_eq (n : ℕ) : natSqrt n = Nat.sqrt n := by
  unfold natSqrt Nat.sqrt
  by_cases h : n ≤ 1
  · simp [h]
  · simp only [if_neg h]
    exact sqrtIter_eq n n (n / 2) (Nat.div_le_self n 2)

theorem ratSqrt_zero : ratSqrt 0 = 0 := by norm_num [ratSqrt, natSqrt, sqrtIter]

theorem ratSqrt_pos {q : ℚ} (h : 0 < q) : 0 < ratSqrt q := by
  have hnum : 0 < q.num := Rat.num_pos.mpr h
  have h1 : 1 ≤ q.num.toNat := by omega
  have h2 : 0 < Nat.sqrt q.num.toNat := by
    rw [Nat.sqrt_pos]; exact h1
  have h3 : 0 < Nat.sqrt q.den := by
    rw [Nat.sqrt_pos]; exact q.den_pos
  unfold ratSqrt
  rw [natSqrt_eq, natSqrt_eq]
  apply div_pos
  · exact_mod_cast h2
  · exact_mod_cast h3

theorem ratSqrt_sq {a : ℚ} (h : 0 ≤ a) : ratSqrt (a * a) = a := by
  unfold ratSqrt
  rw [natSqrt_eq, natSqrt_eq]
  have hnum : (a * a).num = a.num * a.num := Rat.mul_self_num a
  have hden : (a * a).den = a.den * a.den := Rat.mul_self_den a
  have hna : 0 ≤ a.num := Rat.num_nonneg.mpr h
  obtain ⟨k, hk⟩ := Int.eq_ofNat_of_zero_le hna
  have htn : (a.num * a.num).toNat = a.num.toNat * a.num.toNat := by
    rw [hk]
    have hkk : ((k : ℤ) * (k : ℤ)) = ((k * k : ℕ) : ℤ) := by exact_mod_cast rfl
    rw [hkk, Int.toNat_natCast, Int.toNat_natCast]
  rw [hnum, hden, htn, Nat.sqrt_eq, Nat.sqrt_eq]
  have hcast : (a.num.toNat : ℚ) = (a.num : ℚ) := by rw [hk]; simp
  rw [hcast]
  exact_mod_cast Rat.num_div_den a

/-! Characterisation of `Intersect` results. -/

theorem intersect_char (o : SceneObject) (ray : Ray) (p n : Vec3) :
    o.Intersect ray p n =
      if intersectDist o ray = NO_INTERSECTION
      then (NO_INTERSECTION, p, n)
      else (intersectDist o ray, intersectPoint o ray, intersectNormal o ray) := by
  cases o with
  | sphere s =>
    unfold intersectDist intersectPoint intersectNormal SceneObject.Intersect
      Sphere.Intersect
    by_cases h : s.sVal ray = NO_INTERSECTION <;> simp [h]
  | triangle t =>
    unfold intersectDist intersectPoint intersectNormal SceneObject.Intersect
      Triangle.Intersect
    by_cases h : t.sVal ray = NO_INTERSECTION <;> simp [h]

/-! Claim C2: the sphere quadratic case analysis. -/

/-- C2: the claim states that for `discriminant > 0` with only one root
positive, `Sphere::Intersect` returns the positive root.  The code
instead always returns `t2 = -b - sqrt(disc)` (the ternary condition
`t1 > 0 and t1 < t2` is unsatisfiable since `t1 > t2`): for the sphere
with center (0,0,1) and radius 3 and the ray from the origin along +z
(origin inside the sphere), the positive root is 4 — the point at
parameter 4 lies exactly on the sphere — yet the function returns -2,
a negative value meaning no intersection.  This contradicts both the
claim and the code's own comment and doc-contract. -/
theorem C2_sphere_wrong_root :
    (sphAround.Intersect rayZ 0 0).1 = -2 ∧
    (sphAround.Intersect rayZ 0 0).1 < 0 ∧
    (0 : ℚ) < 4 ∧
    vdot (rayZ.origin + (4 : ℚ) • rayZ.direction - sphAround.center)
        (rayZ.origin + (4 : ℚ) • rayZ.direction - sphAround.center) =
      sphAround.radius * sphAround.radius :=
  ⟨by decide, by decide, by decide, by decide⟩

/-! Claim C3: the triangle intersection predicate. -/

/-- C3: `Triangle::Intersect` reports a hit exactly when
`f > 0, t > 0, u ≥ 0, v ≥ 0, u + v ≤ 1` (then it returns distance `t`,
the point `O + tD` and normal `normalize(n)`); when `f = 0` the result
is no intersection (the division is total in this model, and the `f > 0`
test rejects the parallel case); and on the spec's concrete example the
hit is at `t = 1` with `u = v = 1/4`. -/
theorem C3_triangle_hit_iff :
    (∀ (tri : Triangle) (ray : Ray) (p n : Vec3),
      tri.Intersect ray p n =
        if 0 < tri.fVal ray ∧ 0 < tri.tVal ray ∧ 0 ≤ tri.uVal ray ∧
            0 ≤ tri.vVal ray ∧ tri.uVal ray + tri.vVal ray ≤ 1
        then (tri.tVal ray, ray.origin + tri.tVal ray • ray.direction,
              vnormalize tri.nVal)
        else (NO_INTERSECTION, p, n)) ∧
    (∀ (tri : Triangle) (ray : Ray) (p n : Vec3),
      tri.fVal ray = 0 → (tri.Intersect ray p n).1 = NO_INTERSECTION) ∧
    (triUnit.Intersect rayTri 0 0 = (1, ⟨1/4, 1/4, 0⟩, ⟨0, 0, 1⟩) ∧
      triUnit.uVal rayTri = 1/4 ∧ triUnit.vVal rayTri = 1/4) := by
  have part1 : ∀ (tri : Triangle) (ray : Ray) (p n : Vec3),
      tri.Intersect ray p n =
        if 0 < tri.fVal ray ∧ 0 < tri.tVal ray ∧ 0 ≤ tri.uVal ray ∧
            0 ≤ tri.vVal ray ∧ tri.uVal ray + tri.vVal ray ≤ 1
        then (tri.tVal ray, ray.origin + tri.tVal ray • ray.direction,
              vnormalize tri.nVal)
        else (NO_INTERSECTION, p, n) := by
    intro tri ray p n
    by_cases hc : 0 < tri.fVal ray ∧ 0 < tri.tVal ray ∧ 0 ≤ tri.uVal ray ∧
        0 ≤ tri.vVal ray ∧ tri.uVal ray + tri.vVal ray ≤ 1
    · have ht : tri.tVal ray ≠ NO_INTERSECTION := by
        have h01 := hc.2.1
        intro he
        rw [he] at h01
        norm_num [NO_INTERSECTION] at h01
      simp only [Triangle.Intersect, Triangle.sVal, if_pos hc, ht,
        not_false_iff]
      rw [if_pos ht]
    · simp only [Triangle.Intersect, Triangle.sVal, if_neg hc]
      simp
  refine ⟨part1, ?_, ?_⟩
  · intro tri ray p n hf
    rw [part1]
    have hnc : ¬(0 < tri.fVal ray ∧ 0 < tri.tVal ray ∧ 0 ≤ tri.uVal ray ∧
        0 ≤ tri.vVal ray ∧ tri.uVal ray + tri.vVal ray ≤ 1) := by
      intro hcon
      rw [hf] at hcon
      exact lt_irrefl 0 hcon.1
    rw [if_neg hnc]
  · exact ⟨by decide, by decide, by decide⟩

/-- Witness for C3: a ray parallel to the triangle's plane has `f = 0`
and the code reports no intersection there. -/
theorem C3_witness :
    triUnit.fVal rayPar = 0 ∧
    (triUnit.Intersect rayPar 0 0).1 = NO_INTERSECTION :=
  ⟨by decide, C3_triangle_hit_iff.2.1 triUnit rayPar 0 0 (by decide)⟩

/-! Claim C4: depth clamping and termination. -/

/-- C4: `RayTrace` terminates for every input (it is a total function of
the structural fuel `maxDepth.toNat`; the recursive call fires only
under `maxDepth > 1` and passes `maxDepth - 1`), and every
`maxDepth ≤ 1` — including 0 and negative values — produces exactly the
result of `maxDepth = 1`, with no reflection recursion. -/
theorem C4_depth_clamp (u : RcInit) (ray : Ray) (scene : Scene)
    (camera : Camera) (maxDepth : ℤ) (h : maxDepth ≤ 1) :
    RayTrace u ray scene camera maxDepth = RayTrace u ray scene camera 1 := by
  unfold RayTrace
  have h0 : maxDepth.toNat = 0 ∨ maxDepth.toNat = 1 := by omega
  have h1 : (1 : ℤ).toNat = 1 := rfl
  rcases h0 with h0 | h0
  · rw [h0, h1]
    rfl
  · rw [h0, h1]

/-- Witness for C4 at `maxDepth = 0` on a concrete scene. -/
theorem C4_witness :
    (0 : ℤ) ≤ 1 ∧
    RayTrace rcZero rayZ sceneNoLights camFive 0 =
      RayTrace rcZero rayZ sceneNoLights camFive 1 :=
  ⟨by decide, C4_depth_clamp rcZero rayZ sceneNoLights camFive 0 (by decide)⟩

/-! Claim C7: Raycast on an empty object list returns the uninitialised
`ret` fields. -/

/-- C7: the claim says an empty scene yields `obj = nullptr` and the
background color.  In the code, `ret.t` and `ret.obj` are only assigned
inside the loop over objects, so with an empty object list `Raycast`
returns the default-initialised — i.e. indeterminate — fields unchanged
(undefined behaviour in C++).  With garbage values whose object pointer
is non-null, the returned hit object is not `none`. -/
theorem C7_empty_scene_uninit :
    (∀ (u : RcInit) (ray : Ray),
      Raycast u ray sceneNoObjects = ⟨ray, u.t, u.obj, u.point, u.normal⟩) ∧
    (Raycast rcGarbage rayZ sceneNoObjects).obj =
      some (SceneObject.sphere ⟨matBlack, ⟨9, 9, 9⟩, 1⟩) ∧
    (Raycast rcGarbage rayZ sceneNoObjects).obj ≠ none :=
  ⟨fun _ _ => rfl, by decide, by decide⟩

/-! Claim C9: a scene with no lights always shades to the background. -/

theorem rayTraceCore_no_lights (u : RcInit) (scene : Scene) (camera : Camera)
    (recurse : Ray → Vec3) (withRefl : Bool) (ray : Ray)
    (h : scene.lights = []) :
    rayTraceCore u scene camera recurse withRefl ray = BACKGROUND_COLOR := by
  simp only [rayTraceCore]
  rw [h]
  cases hobj : (Raycast u ray scene).obj with
  | none => simp [hobj]
  | some ob => simp [hobj, lightLoop]

/-- C9: when the light list is empty, `RayTrace` returns the background
color for every ray and every depth, even when the ray hits an object:
the per-light loop contributes nothing. -/
theorem C9_no_lights_background (u : RcInit) (ray : Ray) (scene : Scene)
    (camera : Camera) (maxDepth : ℤ) (h : scene.lights = []) :
    RayTrace u ray scene camera maxDepth = BACKGROUND_COLOR := by
  unfold RayTrace
  have hall : ∀ k : ℕ, RayTraceGo u scene camera k ray = BACKGROUND_COLOR := by
    intro k
    rcases k with _ | k
    · exact rayTraceCore_no_lights u scene camera (fun _ => 0) false ray h
    · rcases k with _ | k
      · exact rayTraceCore_no_lights u scene camera (fun _ => 0) false ray h
      · exact rayTraceCore_no_lights u scene camera
          (RayTraceGo u scene camera (k + 1)) true ray h
  exact hall _

/-- Witness for C9: a scene whose single sphere is hit by the ray but
that has no lights shades to the background color. -/
theorem C9_witness :
    sceneNoLights.lights = [] ∧
    (Raycast rcZero rayZ sceneNoLights).obj = some (SceneObject.sphere sphFront) ∧
    RayTrace rcZero rayZ sceneNoLights camFive 5 = BACKGROUND_COLOR :=
  ⟨rfl, by decide, C9_no_lights_background rcZero rayZ sceneNoLights camFive 5 rfl⟩

/-! Claim C10: determinism of the non-anti-aliased pipeline. -/

/-- C10: with anti-aliasing disabled, `GetRayThruPixel` uses the fixed
sub-pixel offset (1/2, 1/2) and consumes nothing from the random
stream, so the whole per-pixel pipeline is a deterministic function of
the scene, camera and depth: two renders with arbitrary (different)
random streams produce identical colors at every pixel. -/
theorem C10_noaa_deterministic (tanF : ℚ → ℚ) (u : RcInit) (scene : Scene)
    (camera : Camera) (maxDepth : ℤ) (x y : ℤ) (rng1 rng2 : List ℚ) :
    renderPixelNoAA tanF u scene camera maxDepth x y rng1 =
      renderPixelNoAA tanF u scene camera maxDepth x y rng2 ∧
    (GetRayThruPixel tanF camera x y false rng1).1 =
      (GetRayThruPixel tanF camera x y false rng2).1 ∧
    (GetRayThruPixel tanF camera x y false rng1).2 = rng1 :=
  ⟨rfl, rfl, rfl⟩

/-! Claim C6: no fail-fast on invalid camera configurations. -/

theorem Vec3.div_def (a : Vec3) (q : ℚ) : a / q = ⟨a.x / q, a.y / q, a.z / q⟩ := rfl

theorem Vec3.sub_def (a b : Vec3) : a - b = ⟨a.x - b.x, a.y - b.y, a.z - b.z⟩ := rfl

theorem vnormalize_zero : vnormalize 0 = 0 := by
  simp [vnormalize, Vec3.div_def, Vec3.zero_def]

theorem Vec3.add_sub_cancel_left (a b : Vec3) : a + b - a = b := by
  cases b with
  | mk b1 b2 b3 =>
    simp only [Vec3.add_def, Vec3.sub_def, Vec3.mk.injEq]
    refine ⟨?_, ?_, ?_⟩ <;> ring

/-- C6 counterexample: for a camera whose look-direction is parallel to
the global up vector, the ray generator does not fail — it returns an
ordinary ray (and consumes nothing), even though the orthonormal-basis
cross product is the zero vector, so the C++ code normalizes a
zero-length vector (a division by zero, NaN in IEEE floats). -/
theorem C6_counterexample :
    vcross (vnormalize (camDeg.lookTarget - camDeg.position)) camDeg.globalUp = 0 ∧
    (GetRayThruPixel tanOne camDeg 0 0 false []).1 = ⟨⟨0, 0, 0⟩, ⟨0, 1, 0⟩⟩ ∧
    (GetRayThruPixel tanOne camDeg 0 0 false []).2 = [] :=
  ⟨by decide, by decide, by decide⟩

/-- C6 (amended): the render performs no camera validation and never
fails fast.  `GetRayThruPixel` returns a ray for every camera — its
origin is always the camera position, including for zero image
dimensions (the viewport divisions are performed regardless) — and when
the look-direction is parallel to the global up vector the basis
vectors degenerate to `normalize(0)` and the returned direction is just
the normalized, focal-length-scaled look direction. -/
theorem C6_no_camera_validation :
    (∀ (tanF : ℚ → ℚ) (camera : Camera) (px py : ℤ) (aa : Bool) (rng : List ℚ),
      ((GetRayThruPixel tanF camera px py aa rng).1).origin = camera.position) ∧
    (∀ (tanF : ℚ → ℚ) (camera : Camera) (px py : ℤ) (rng : List ℚ),
      vcross (vnormalize (camera.lookTarget - camera.position))
          camera.globalUp = 0 →
      ((GetRayThruPixel tanF camera px py false rng).1).direction =
        vnormalize (camera.focalLength •
          vnormalize (camera.lookTarget - camera.position))) := by
  constructor
  · intro tanF camera px py aa rng
    rfl
  · intro tanF camera px py rng h
    simp only [GetRayThruPixel, h, vnormalize_zero, vcross_zero_left,
      Vec3.smul_zero, Vec3.add_zero]
    rw [Vec3.add_sub_cancel_left]

/-- Witness for C6 at the concrete degenerate camera. -/
theorem C6_witness :
    vcross (vnormalize (camDeg.lookTarget - camDeg.position)) camDeg.globalUp = 0 ∧
    ((GetRayThruPixel tanOne camDeg 2 3 false []).1).direction =
      vnormalize (camDeg.focalLength •
        vnormalize (camDeg.lookTarget - camDeg.position)) :=
  ⟨by decide, C6_no_camera_validation.2 tanOne camDeg 2 3 [] (by decide)⟩

/-! Claim C8: SetColor index arithmetic and channel conversion. -/

/-- C8: `SetColor` writes the three channel bytes at linear index
`(y * width + x) * 3`, each byte obtained by clamping the channel to
[0,1], scaling by 255 and truncating; hence a channel ≥ 1 stores 255
and a channel ≤ 0 stores 0. -/
theorem C8_setcolor (img : Image) (x y : ℕ) (color : Vec3)
    (hx : x < img.width) (hy : y < img.height)
    (hlen : img.data.length = img.width * img.height * 3) :
    ((img.SetColor x y color).data[(y * img.width + x) * 3]? =
        some (Image.ToChar color.x) ∧
      (img.SetColor x y color).data[(y * img.width + x) * 3 + 1]? =
        some (Image.ToChar color.y) ∧
      (img.SetColor x y color).data[(y * img.width + x) * 3 + 2]? =
        some (Image.ToChar color.z)) ∧
    (∀ c : ℚ, 1 ≤ c → Image.ToChar c = 255) ∧
    (∀ c : ℚ, c ≤ 0 → Image.ToChar c = 0) := by
  have hidx : (y * img.width + x) * 3 + 2 < img.data.length := by
    rw [hlen]
    have h1 : y * img.width + x + 1 ≤ img.width * img.height := by
      calc y * img.width + x + 1 ≤ y * img.width + img.width := by omega
        _ = (y + 1) * img.width := by ring
        _ ≤ img.height * img.width := Nat.mul_le_mul_right _ hy
        _ = img.width * img.height := Nat.mul_comm _ _
    omega
  refine ⟨?_, ?_, ?_⟩
  · simp only [Image.SetColor]
    refine ⟨?_, ?_, ?_⟩
    · rw [List.getElem?_set_ne (by omega), List.getElem?_set_ne (by omega),
        List.getElem?_set_self (by omega)]
    · rw [List.getElem?_set_ne (by omega),
        List.getElem?_set_self (by simp only [List.length_set]; omega)]
    · rw [List.getElem?_set_self (by simp only [List.length_set]; omega)]
  · intro c hc
    unfold Image.ToChar qclamp
    have hmax : max c 0 = c := max_eq_left (le_trans zero_le_one hc)
    have hmin : min c 1 = 1 := min_eq_right hc
    rw [hmax, hmin]
    decide
  · intro c hc
    unfold Image.ToChar qclamp
    have hmax : max c 0 = 0 := max_eq_right hc
    rw [hmax]
    have hmin : min (0 : ℚ) 1 = 0 := min_eq_left zero_le_one
    rw [hmin]
    decide

/-- Witness for C8 on a concrete 1x1 image and an out-of-range color. -/
theorem C8_witness :
    (0 < imgOne.width ∧ 0 < imgOne.height ∧
      imgOne.data.length = imgOne.width * imgOne.height * 3) ∧
    ((imgOne.SetColor 0 0 ⟨2, -1, 1/2⟩).data[(0 * imgOne.width + 0) * 3]? =
        some (Image.ToChar (2 : ℚ)) ∧
      (imgOne.SetColor 0 0 ⟨2, -1, 1/2⟩).data[(0 * imgOne.width + 0) * 3 + 1]? =
        some (Image.ToChar (-1 : ℚ)) ∧
      (imgOne.SetColor 0 0 ⟨2, -1, 1/2⟩).data[(0 * imgOne.width + 0) * 3 + 2]? =
        some (Image.ToChar (1/2 : ℚ))) ∧
    Image.ToChar (2 : ℚ) = 255 ∧ Image.ToChar (-1 : ℚ) = 0 :=
  ⟨⟨by decide, by decide, by decide⟩,
    (C8_setcolor imgOne 0 0 ⟨2, -1, 1/2⟩ (by decide) (by decide) (by decide)).1,
    (C8_setcolor imgOne 0 0 ⟨2, -1, 1/2⟩ (by decide) (by decide) (by decide)).2.1
      2 (by norm_num),
    (C8_setcolor imgOne 0 0 ⟨2, -1, 1/2⟩ (by decide) (by decide) (by decide)).2.2
      (-1) (by norm_num)⟩

/-! Claim C5: the per-light shadow test. -/

theorem vsum_nil : vsum [] = 0 := rfl

theorem vsum_cons (a : Vec3) (ls : List Vec3) : vsum (a :: ls) = a + vsum ls := rfl

theorem Raycast_incomingRay (u : RcInit) (ray : Ray) (scene : Scene) :
    (Raycast u ray scene).incomingRay = ray := by
  unfold Raycast
  cases scene.objects with
  | nil => rfl
  | cons o os => rfl

theorem lightLoop_eq_sum (u : RcInit) (scene : Scene) (camera : Camera)
    (info : IntersectionInfo) (ob : SceneObject) (recurse : Ray → Vec3)
    (withRefl : Bool) (ls : List Light) :
    ∀ color,
      lightLoop u scene camera info ob recurse withRefl ls color =
        color + vsum (ls.map (lightContrib u scene camera info ob recurse withRefl)) := by
  induction ls with
  | nil =>
    intro color
    simp only [lightLoop, List.map_nil, vsum_nil, Vec3.add_zero]
  | cons l ls ih =>
    intro color
    simp only [lightLoop, List.map_cons, vsum_cons]
    rw [ih, Vec3.add_assoc]

/-- C5 (amended): at a hit point, each light contributes its ambient
term unconditionally, plus `(diffuse + specular) * attenuation` (and,
at depth > 1, the reflection term) exactly when the shadow ray — cast
from the hit point offset along the normal by `SHADOW_BIAS` toward the
light — hits no object or hits one farther (from the shadow-ray origin)
than the code's light distance: the distance to the light position for
point lights, and the distance to the point 999 units along the light
direction from the world origin for directional lights.  With a closer
shadow hit, only the ambient term is contributed for that light. -/
theorem C5_per_light_shadow (u : RcInit) (scene : Scene) (camera : Camera)
    (ray : Ray) (maxDepth : ℤ) (ob : SceneObject)
    (hit : (Raycast u ray scene).obj = some ob) :
    RayTrace u ray scene camera maxDepth =
      BACKGROUND_COLOR + vsum (scene.lights.map (fun l =>
        let info := Raycast u ray scene
        let ambient :=
          ob.material.ambient * (l.ambient / (scene.lights.length : ℚ))
        let directionToLight :=
          if l.position.w = 1
          then vnormalize (l.position.xyz - info.intersectionPoint)
          else vnormalize l.position.negV.xyz
        let diffuse :=
          max (vdot directionToLight info.intersectionNormal) 0 •
            (ob.material.diffuse * l.diffuse)
        let specular :=
          qpow (max (vdot (vreflect (-directionToLight) info.intersectionNormal)
            (vnormalize (camera.position - info.intersectionPoint))) 0)
            ob.material.shininess • (ob.material.specular * l.specular)
        let attenuation : ℚ :=
          if l.position.w ≠ 0 then
            let distanceToLight :=
              vdistance info.intersectionPoint l.position.xyz
            1 / (l.constant + l.linear * distanceToLight
              + l.quadratic * distanceToLight * distanceToLight)
          else 1
        let shadowRay : Ray :=
          ⟨info.intersectionPoint + SHADOW_BIAS • info.intersectionNormal,
            directionToLight⟩
        let shadowingInfo := Raycast u shadowRay scene
        let distanceToLight :=
          if l.position.w = 1
          then vdistance shadowRay.origin l.position.xyz
          else vdistance shadowRay.origin ((999 : ℚ) • shadowRay.direction)
        ambient +
          (if shadowingInfo.obj = none ∨
              vdistance shadowRay.origin shadowingInfo.intersectionPoint
                > distanceToLight
           then attenuation • (diffuse + specular) +
             (if 1 < maxDepth then
               (ob.material.shininess / REFLECTIVITY_CONSTANT) •
                 RayTrace u
                   ⟨info.intersectionPoint +
                       REFLECTION_BIAS • info.intersectionNormal,
                     vreflect ray.direction info.intersectionNormal⟩
                   scene camera (maxDepth - 1)
              else 0)
           else 0))) := by
  have hor : ∀ (a : Option SceneObject) (p : Prop) [Decidable p],
      (a = none ∨ (a ≠ none ∧ p)) ↔ (a = none ∨ p) := by
    intro a p hp
    constructor
    · rintro (h | ⟨_, h⟩)
      · exact Or.inl h
      · exact Or.inr h
    · rintro (h | h)
      · exact Or.inl h
      · by_cases ha : a = none
        · exact Or.inl ha
        · exact Or.inr ⟨ha, h⟩
  have hinc : (Raycast u ray scene).incomingRay = ray :=
    Raycast_incomingRay u ray scene
  have key : ∀ (recurse : Ray → Vec3) (withRefl : Bool),
      (withRefl = true ↔ 1 < maxDepth) →
      (∀ r : Ray, withRefl = true →
        recurse r = RayTrace u r scene camera (maxDepth - 1)) →
      rayTraceCore u scene camera recurse withRefl ray =
        BACKGROUND_COLOR + vsum (scene.lights.map (fun l =>
          let info := Raycast u ray scene
          let ambient :=
            ob.material.ambient * (l.ambient / (scene.lights.length : ℚ))
          let directionToLight :=
            if l.position.w = 1
            then vnormalize (l.position.xyz - info.intersectionPoint)
            else vnormalize l.position.negV.xyz
          let diffuse :=
            max (vdot directionToLight info.intersectionNormal) 0 •
              (ob.material.diffuse * l.diffuse)
          let specular :=
            qpow (max (vdot (vreflect (-directionToLight) info.intersectionNormal)
              (vnormalize (camera.position - info.intersectionPoint))) 0)
              ob.material.shininess • (ob.material.specular * l.specular)
          let attenuation : ℚ :=
            if l.position.w ≠ 0 then
              let distanceToLight :=
                vdistance info.intersectionPoint l.position.xyz
              1 / (l.constant + l.linear * distanceToLight
                + l.quadratic * distanceToLight * distanceToLight)
            else 1
          let shadowRay : Ray :=
            ⟨info.intersectionPoint + SHADOW_BIAS • info.intersectionNormal,
              directionToLight⟩
          let shadowingInfo := Raycast u shadowRay scene
          let distanceToLight :=
            if l.position.w = 1
            then vdistance shadowRay.origin l.position.xyz
            else vdistance shadowRay.origin ((999 : ℚ) • shadowRay.direction)
          ambient +
            (if shadowingInfo.obj = none ∨
                vdistance shadowRay.origin shadowingInfo.intersectionPoint
                  > distanceToLight
             then attenuation • (diffuse + specular) +
               (if 1 < maxDepth then
                 (ob.material.shininess / REFLECTIVITY_CONSTANT) •
                   RayTrace u
                     ⟨info.intersectionPoint +
                         REFLECTION_BIAS • info.intersectionNormal,
                       vreflect ray.direction info.intersectionNormal⟩
                     scene camera (maxDepth - 1)
                else 0)
             else 0))) := by
    intro recurse withRefl hrefl hrec
    unfold rayTraceCore
    simp only [hit]
    rw [lightLoop_eq_sum]
    congr 1
    apply congrArg vsum
    apply List.map_congr_left
    intro l _
    simp only [lightContrib, hinc]
    congr 1
    rw [if_congr (hor _ _) rfl rfl]
    by_cases hl : (Raycast u
        ⟨(Raycast u ray scene).intersectionPoint +
            SHADOW_BIAS • (Raycast u ray scene).intersectionNormal,
          if l.position.w = 1
          then vnormalize (l.position.xyz - (Raycast u ray scene).intersectionPoint)
          else vnormalize l.position.negV.xyz⟩ scene).obj = none ∨
        vdistance ((Raycast u ray scene).intersectionPoint +
            SHADOW_BIAS • (Raycast u ray scene).intersectionNormal)
          (Raycast u
            ⟨(Raycast u ray scene).intersectionPoint +
                SHADOW_BIAS • (Raycast u ray scene).intersectionNormal,
              if l.position.w = 1
              then vnormalize (l.position.xyz - (Raycast u ray scene).intersectionPoint)
              else vnormalize l.position.negV.xyz⟩ scene).intersectionPoint >
          (if l.position.w = 1
           then vdistance ((Raycast u ray scene).intersectionPoint +
               SHADOW_BIAS • (Raycast u ray scene).intersectionNormal)
             l.position.xyz
           else vdistance ((Raycast u ray scene).intersectionPoint +
               SHADOW_BIAS • (Raycast u ray scene).intersectionNormal)
             ((999 : ℚ) •
               (if l.position.w = 1
                then vnormalize (l.position.xyz - (Raycast u ray scene).intersectionPoint)
                else vnormalize l.position.negV.xyz)))
    · rw [if_pos hl, if_pos hl]
      congr 1
      cases hw : withRefl with
      | false =>
        have hnd : ¬(1 < maxDepth) := by
          intro hd
          have := hrefl.mpr hd
          rw [hw] at this
          exact Bool.false_ne_true this
        simp only [if_neg hnd, Bool.false_eq_true, if_false]
      | true =>
        have hd : 1 < maxDepth := hrefl.mp hw
        simp only [if_pos hd, if_true]
        rw [hrec _ hw]
    · rw [if_neg hl, if_neg hl]
  unfold RayTrace
  rcases hn : maxDepth.toNat with _ | k
  · have h0 : ¬(1 < maxDepth) := by omega
    exact key (fun _ => 0) false (by simp [h0]) (by intro r hr; cases hr)
  · rcases k with _ | k
    · have h0 : ¬(1 < maxDepth) := by omega
      exact key (fun _ => 0) false (by simp [h0]) (by intro r hr; cases hr)
    · have hd : maxDepth = (k : ℤ) + 2 := by omega
      have h1 : 1 < maxDepth := by omega
      have h2 : (maxDepth - 1).toNat = k + 1 := by omega
      refine Eq.trans ?_ (key (RayTraceGo u scene camera (k + 1)) true
        (by simp [h1]) ?_)
      · rfl
      · intro r _
        unfold RayTrace
        rw [h2]

/-- Witness for C5: one point light, unoccluded hit point; applying the
theorem and evaluating the per-light sum gives full diffuse lighting. -/
theorem C5_witness :
    (Raycast rcZero rayDown scenePoint).obj =
      some (SceneObject.triangle triFloor) ∧
    lightPoint.position.w = 1 ∧
    RayTrace rcZero rayDown scenePoint camFive 1 = ⟨1, 1, 1⟩ :=
  ⟨by decide, by decide, by
    rw [C5_per_light_shadow rcZero scenePoint camFive rayDown 1
      (SceneObject.triangle triFloor) (by decide)]
    decide⟩

/-- C5 counterexample: the claim says a shadow-ray hit on an occluder
closer than the light leaves only the ambient contribution.  Here the
light is directional — it lies at infinity, so the occluder sphere
(hit by the shadow ray at distance about 1499) is strictly between the
hit point and the light — yet `RayTrace` still adds the full diffuse
term, because the code compares against the distance to the point 999
units along the light direction from the world origin, which is
smaller.  The ambient-only color would be (0,0,0); the code returns
(1,1,1). -/
theorem C5_counterexample :
    (Raycast rcZero rayDown sceneShadow).obj =
      some (SceneObject.triangle triFloor) ∧
    (Raycast rcZero rayDown sceneShadow).intersectionPoint +
        SHADOW_BIAS • (Raycast rcZero rayDown sceneShadow).intersectionNormal =
      ⟨0, 0, 1/1000⟩ ∧
    vnormalize lightDown.position.negV.xyz = ⟨0, 0, 1⟩ ∧
    (Raycast rcZero ⟨⟨0, 0, 1/1000⟩, ⟨0, 0, 1⟩⟩ sceneShadow).obj =
      some (SceneObject.sphere sphOccluder) ∧
    lightDown.position.w = 0 ∧
    RayTrace rcZero rayDown sceneShadow camFive 1 = ⟨1, 1, 1⟩ ∧
    BACKGROUND_COLOR + (SceneObject.triangle triFloor).material.ambient *
        (lightDown.ambient / (sceneShadow.lights.length : ℚ)) = ⟨0, 0, 0⟩ ∧
    ((⟨1, 1, 1⟩ : Vec3) ≠ ⟨0, 0, 0⟩) :=
  ⟨by decide, by decide, by decide, by decide, by decide, by decide,
    by decide, by decide⟩

/-! Claim C1: nearest-hit resolution. -/

theorem intersect_fst (o : SceneObject) (ray : Ray) (p n : Vec3) :
    (o.Intersect ray p n).1 = intersectDist o ray := by
  rw [intersect_char]
  by_cases h : intersectDist o ray = NO_INTERSECTION
  · rw [if_pos h, h]
  · rw [if_neg h]

theorem intersect_of_pos (o : SceneObject) (ray : Ray) (p n : Vec3)
    (h : 0 < intersectDist o ray) :
    o.Intersect ray p n =
      (intersectDist o ray, intersectPoint o ray, intersectNormal o ray) := by
  rw [intersect_char]
  have hne : intersectDist o ray ≠ NO_INTERSECTION := by
    intro he
    rw [he] at h
    norm_num [NO_INTERSECTION] at h
  rw [if_neg hne]

theorem firstClosestHit_none (ray : Ray) (l : List SceneObject)
    (h : firstClosestHit ray l = none) :
    ∀ o ∈ l, ¬(0 < intersectDist o ray) := by
  induction l with
  | nil => intro o ho; cases ho
  | cons o os ih =>
    intro o2 ho2
    cases hf : firstClosestHit ray os with
    | none =>
      simp only [firstClosestHit, hf] at h
      by_cases hd : 0 < intersectDist o ray
      · rw [if_pos hd] at h; cases h
      · rcases List.mem_cons.mp ho2 with he | hm
        · rw [he]; exact hd
        · exact ih hf o2 hm
    | some o1 =>
      simp only [firstClosestHit, hf] at h
      by_cases hc : 0 < intersectDist o ray ∧
          intersectDist o ray ≤ intersectDist o1 ray
      · rw [if_pos hc] at h; cases h
      · rw [if_neg hc] at h; cases h

theorem firstClosestHit_mem_pos (ray : Ray) (l : List SceneObject)
    (o : SceneObject) (h : firstClosestHit ray l = some o) :
    o ∈ l ∧ 0 < intersectDist o ray := by
  induction l generalizing o with
  | nil => cases h
  | cons o0 os ih =>
    cases hf : firstClosestHit ray os with
    | none =>
      simp only [firstClosestHit, hf] at h
      by_cases hd : 0 < intersectDist o0 ray
      · rw [if_pos hd] at h
        cases h
        exact ⟨List.mem_cons_self _ _, hd⟩
      · rw [if_neg hd] at h; cases h
    | some o1 =>
      simp only [firstClosestHit, hf] at h
      by_cases hc : 0 < intersectDist o0 ray ∧
          intersectDist o0 ray ≤ intersectDist o1 ray
      · rw [if_pos hc] at h
        cases h
        exact ⟨List.mem_cons_self _ _, hc.1⟩
      · rw [if_neg hc] at h
        cases h
        obtain ⟨hm, hp⟩ := ih o hf
        exact ⟨List.mem_cons_of_mem _ hm, hp⟩

theorem firstClosestHit_min (ray : Ray) (l : List SceneObject)
    (o : SceneObject) (h : firstClosestHit ray l = some o) :
    ∀ o2 ∈ l, 0 < intersectDist o2 ray →
      intersectDist o ray ≤ intersectDist o2 ray := by
  induction l generalizing o with
  | nil => cases h
  | cons o0 os ih =>
    intro o2 ho2 hpos
    cases hf : firstClosestHit ray os with
    | none =>
      simp only [firstClosestHit, hf] at h
      by_cases hd : 0 < intersectDist o0 ray
      · rw [if_pos hd] at h
        cases h
        rcases List.mem_cons.mp ho2 with he | hm
        · rw [he]
        · exact absurd hpos (firstClosestHit_none ray os hf o2 hm)
      · rw [if_neg hd] at h; cases h
    | some o1 =>
      simp only [firstClosestHit, hf] at h
      by_cases hc : 0 < intersectDist o0 ray ∧
          intersectDist o0 ray ≤ intersectDist o1 ray
      · rw [if_pos hc] at h
        cases h
        rcases List.mem_cons.mp ho2 with he | hm
        · rw [he]
        · exact le_trans hc.2 (ih o1 hf o2 hm hpos)
      · rw [if_neg hc] at h
        cases h
        rcases List.mem_cons.mp ho2 with he | hm
        · rw [he] at hpos ⊢
          push_neg at hc
          exact le_of_lt (hc hpos)
        · exact ih o hf o2 hm hpos

theorem firstClosestHit_earliest (ray : Ray) (l : List SceneObject)
    (o : SceneObject) (h : firstClosestHit ray l = some o) :
    ∃ l1 l2, l = l1 ++ o :: l2 ∧
      ∀ o2 ∈ l1, ¬(0 < intersectDist o2 ray ∧
        intersectDist o2 ray ≤ intersectDist o ray) := by
  induction l generalizing o with
  | nil => cases h
  | cons o0 os ih =>
    cases hf : firstClosestHit ray os with
    | none =>
      simp only [firstClosestHit, hf] at h
      by_cases hd : 0 < intersectDist o0 ray
      · rw [if_pos hd] at h
        cases h
        exact ⟨[], os, rfl, by intro o2 ho2; cases ho2⟩
      · rw [if_neg hd] at h; cases h
    | some o1 =>
      simp only [firstClosestHit, hf] at h
      by_cases hc : 0 < intersectDist o0 ray ∧
          intersectDist o0 ray ≤ intersectDist o1 ray
      · rw [if_pos hc] at h
        cases h
        exact ⟨[], os, rfl, by intro o2 ho2; cases ho2⟩
      · rw [if_neg hc] at h
        cases h
        obtain ⟨l1, l2, heq, hprop⟩ := ih o hf
        refine ⟨o0 :: l1, l2, by rw [heq]; rfl, ?_⟩
        intro o2 ho2
        rcases List.mem_cons.mp ho2 with he | hm
        · rw [he]; exact hc
        · exact hprop o2 hm

theorem firstClosestHit_exists (ray : Ray) (l : List SceneObject)
    (hex : ∃ o ∈ l, 0 < intersectDist o ray) :
    ∃ o, firstClosestHit ray l = some o := by
  cases hf : firstClosestHit ray l with
  | none =>
    obtain ⟨o, ho, hpos⟩ := hex
    exact absurd hpos (firstClosestHit_none ray l hf o ho)
  | some o => exact ⟨o, rfl⟩

theorem raycastStep_eq (ray : Ray) (st : RcState) (o : SceneObject) :
    raycastStep ray st o =
      if (0 < intersectDist o ray ∧ 0 < st.t ∧ intersectDist o ray < st.t) ∨
          (st.t = NO_INTERSECTION ∧ 0 < intersectDist o ray)
      then ⟨intersectDist o ray, some o, intersectPoint o ray,
            intersectNormal o ray, intersectPoint o ray, intersectNormal o ray⟩
      else ⟨st.t, st.obj, st.point, st.normal,
            (o.Intersect ray st.tmpPoint st.tmpNormal).2.1,
            (o.Intersect ray st.tmpPoint st.tmpNormal).2.2⟩ := by
  unfold raycastStep
  simp only [intersect_fst]
  by_cases hc : (0 < intersectDist o ray ∧ 0 < st.t ∧
      intersectDist o ray < st.t) ∨
      (st.t = NO_INTERSECTION ∧ 0 < intersectDist o ray)
  · rw [if_pos hc, if_pos hc]
    have hpos : 0 < intersectDist o ray := by
      rcases hc with ⟨h1, _⟩ | ⟨_, h1⟩ <;> exact h1
    rw [intersect_of_pos _ _ _ _ hpos]
  · rw [if_neg hc, if_neg hc]

theorem foldl_raycastStep_char (ray : Ray) (l : List SceneObject)
    (hok : ∀ o ∈ l, 0 < intersectDist o ray ∨
      intersectDist o ray = NO_INTERSECTION) :
    ∀ st : RcState,
      (st.t = NO_INTERSECTION ∨
        (0 < st.t ∧ ∃ o0, st.obj = some o0 ∧ st.t = intersectDist o0 ray ∧
          st.point = intersectPoint o0 ray ∧ st.normal = intersectNormal o0 ray)) →
      retOf (l.foldl (raycastStep ray) st) =
        (firstClosestHit ray l).elim (retOf st) (fun o1 =>
          if st.t = NO_INTERSECTION ∨ intersectDist o1 ray < st.t
          then hitQuad ray o1 else retOf st) := by
  induction l with
  | nil =>
    intro st hst
    simp [firstClosestHit, List.foldl_nil]
  | cons o os ih =>
    intro st hst
    have hok_o := hok o (List.mem_cons_self _ _)
    have hok_os : ∀ o2 ∈ os, 0 < intersectDist o2 ray ∨
        intersectDist o2 ray = NO_INTERSECTION :=
      fun o2 h2 => hok o2 (List.mem_cons_of_mem _ h2)
    have hni_neg : ¬(0 < NO_INTERSECTION) := by norm_num [NO_INTERSECTION]
    rw [List.foldl_cons, raycastStep_eq]
    rcases hok_o with hpos | hni
    · -- the head object has a positive intersection distance
      have hdne : intersectDist o ray ≠ NO_INTERSECTION := by
        intro he; rw [he] at hpos; exact hni_neg hpos
      rcases hst with hstni | ⟨hstpos, o0, ho0, ht0, hp0, hn0⟩
      · -- ret.t is still the no-intersection sentinel: the head wins for now
        have hcond : (0 < intersectDist o ray ∧ 0 < st.t ∧
            intersectDist o ray < st.t) ∨
            (st.t = NO_INTERSECTION ∧ 0 < intersectDist o ray) :=
          Or.inr ⟨hstni, hpos⟩
        rw [if_pos hcond]
        rw [ih hok_os _ (Or.inr ⟨hpos, o, rfl, rfl, rfl, rfl⟩)]
        cases hf : firstClosestHit ray os with
        | none =>
          simp [firstClosestHit, hf, hpos, hstni, retOf, hitQuad]
        | some o1 =>
          by_cases hle : intersectDist o ray ≤ intersectDist o1 ray
          · have hnlt : ¬(intersectDist o1 ray < intersectDist o ray) :=
              not_lt.mpr hle
            simp [firstClosestHit, hf, hpos, hle, hstni, hdne, hnlt,
              retOf, hitQuad]
          · push_neg at hle
            have hnle : ¬(0 < intersectDist o ray ∧
                intersectDist o ray ≤ intersectDist o1 ray) := by
              intro hand; linarith [hand.2]
            simp [firstClosestHit, hf, hstni, hnle, hle, retOf, hitQuad]
      · -- ret already holds a positive-distance hit
        have hstne : st.t ≠ NO_INTERSECTION := by
          intro he; rw [he] at hstpos; exact hni_neg hstpos
        by_cases hlt : intersectDist o ray < st.t
        · have hcond : (0 < intersectDist o ray ∧ 0 < st.t ∧
              intersectDist o ray < st.t) ∨
              (st.t = NO_INTERSECTION ∧ 0 < intersectDist o ray) :=
            Or.inl ⟨hpos, hstpos, hlt⟩
          rw [if_pos hcond]
          rw [ih hok_os _ (Or.inr ⟨hpos, o, rfl, rfl, rfl, rfl⟩)]
          cases hf : firstClosestHit ray os with
          | none =>
            simp [firstClosestHit, hf, hpos, hstne, hlt, retOf, hitQuad]
          | some o1 =>
            by_cases hle : intersectDist o ray ≤ intersectDist o1 ray
            · have hnlt : ¬(intersectDist o1 ray < intersectDist o ray) :=
                not_lt.mpr hle
              simp [firstClosestHit, hf, hpos, hle, hstne, hdne, hnlt, hlt,
                retOf, hitQuad]
            · push_neg at hle
              have hnle : ¬(0 < intersectDist o ray ∧
                  intersectDist o ray ≤ intersectDist o1 ray) := by
                intro hand; linarith [hand.2]
              have h1lt : intersectDist o1 ray < st.t := by linarith
              simp [firstClosestHit, hf, hstne, hnle, hle, h1lt, retOf, hitQuad]
        · have hcond : ¬((0 < intersectDist o ray ∧ 0 < st.t ∧
              intersectDist o ray < st.t) ∨
              (st.t = NO_INTERSECTION ∧ 0 < intersectDist o ray)) := by
            rintro (⟨_, _, h1⟩ | ⟨h1, _⟩)
            · exact hlt h1
            · exact hstne h1
          rw [if_neg hcond]
          have hst1 : ((⟨st.t, st.obj, st.point, st.normal,
              (o.Intersect ray st.tmpPoint st.tmpNormal).2.1,
              (o.Intersect ray st.tmpPoint st.tmpNormal).2.2⟩ : RcState).t =
                NO_INTERSECTION ∨
              (0 < (⟨st.t, st.obj, st.point, st.normal,
                (o.Intersect ray st.tmpPoint st.tmpNormal).2.1,
                (o.Intersect ray st.tmpPoint st.tmpNormal).2.2⟩ : RcState).t ∧
                ∃ o0, st.obj = some o0 ∧ st.t = intersectDist o0 ray ∧
                  st.point = intersectPoint o0 ray ∧
                  st.normal = intersectNormal o0 ray)) :=
            Or.inr ⟨hstpos, o0, ho0, ht0, hp0, hn0⟩
          rw [ih hok_os _ hst1]
          push_neg at hlt
          cases hf : firstClosestHit ray os with
          | none =>
            have hno : ¬(st.t = NO_INTERSECTION ∨
                intersectDist o ray < st.t) := by
              rintro (h1 | h1)
              · exact hstne h1
              · linarith
            simp [firstClosestHit, hf, hpos, hno, retOf, hitQuad]
          | some o1 =>
            by_cases hle : intersectDist o ray ≤ intersectDist o1 ray
            · have hno1 : ¬(intersectDist o1 ray < st.t) := by linarith
              have hnod : ¬(intersectDist o ray < st.t) := not_lt.mpr hlt
              simp [firstClosestHit, hf, hpos, hle, hstne, hno1, hnod,
                retOf, hitQuad]
            · push_neg at hle
              have hnle : ¬(0 < intersectDist o ray ∧
                  intersectDist o ray ≤ intersectDist o1 ray) := by
                intro hand; linarith [hand.2]
              simp [firstClosestHit, hf, hstne, hnle, retOf, hitQuad]
    · -- the head object does not intersect (sentinel distance -1)
      have hcond : ¬((0 < intersectDist o ray ∧ 0 < st.t ∧
          intersectDist o ray < st.t) ∨
          (st.t = NO_INTERSECTION ∧ 0 < intersectDist o ray)) := by
        rintro (⟨h1, _⟩ | ⟨_, h1⟩) <;> (rw [hni] at h1; exact hni_neg h1)
      rw [if_neg hcond]
      have hst1 : ((⟨st.t, st.obj, st.point, st.normal,
          (o.Intersect ray st.tmpPoint st.tmpNormal).2.1,
          (o.Intersect ray st.tmpPoint st.tmpNormal).2.2⟩ : RcState).t =
            NO_INTERSECTION ∨
          (0 < (⟨st.t, st.obj, st.point, st.normal,
            (o.Intersect ray st.tmpPoint st.tmpNormal).2.1,
            (o.Intersect ray st.tmpPoint st.tmpNormal).2.2⟩ : RcState).t ∧
            ∃ o0, st.obj = some o0 ∧ st.t = intersectDist o0 ray ∧
              st.point = intersectPoint o0 ray ∧
              st.normal = intersectNormal o0 ray)) := hst
      rw [ih hok_os _ hst1]
      have hdneg : ¬(0 < intersectDist o ray) := by
        rw [hni]; exact hni_neg
      cases hf : firstClosestHit ray os with
      | none =>
        simp [firstClosestHit, hf, hdneg, retOf]
      | some o1 =>
        simp [firstClosestHit, hf, hdneg, retOf, hitQuad]

theorem raycast_head_step (u : RcInit) (ray : Ray) (o : SceneObject)
    (hok_o : 0 < intersectDist o ray ∨ intersectDist o ray = NO_INTERSECTION) :
    (if (o.Intersect ray 0 0).1 ≠ NO_INTERSECTION
     then (⟨(o.Intersect ray 0 0).1, some o, (o.Intersect ray 0 0).2.1,
       (o.Intersect ray 0 0).2.2, (o.Intersect ray 0 0).2.1,
       (o.Intersect ray 0 0).2.2⟩ : RcState)
     else ⟨(o.Intersect ray 0 0).1, none, u.point, u.normal,
       (o.Intersect ray 0 0).2.1, (o.Intersect ray 0 0).2.2⟩) =
    raycastStep ray ⟨NO_INTERSECTION, none, u.point, u.normal, 0, 0⟩ o := by
  have hni_neg : ¬(0 < NO_INTERSECTION) := by norm_num [NO_INTERSECTION]
  rw [raycastStep_eq]
  rcases hok_o with hpos | hni
  · have hdne : intersectDist o ray ≠ NO_INTERSECTION := by
      intro he; rw [he] at hpos; exact hni_neg hpos
    rw [intersect_of_pos _ _ _ _ hpos]
    simp [hdne, hpos]
  · rw [intersect_char]
    simp [hni, hni_neg]

/-- C1 (amended): provided every object's `Intersect` reports either a
strictly positive distance or the exact sentinel `NO_INTERSECTION`
(which the `Raycast` loop conditions assume), and some object
intersects, `Raycast` returns — whatever the indeterminate initial
values — the first object in the scene's object sequence attaining the
smallest strictly positive intersection distance, together with that
object's distance, intersection point and normal: the returned object
intersects, no intersecting object is strictly closer, and every
earlier object in the sequence either misses or is strictly farther
(so exact ties keep the earlier object). -/
theorem C1_raycast_first_min (u : RcInit) (ray : Ray) (scene : Scene)
    (hok : ∀ o ∈ scene.objects, 0 < intersectDist o ray ∨
      intersectDist o ray = NO_INTERSECTION)
    (hex : ∃ o ∈ scene.objects, 0 < intersectDist o ray) :
    ∃ o, firstClosestHit ray scene.objects = some o ∧
      Raycast u ray scene =
        ⟨ray, intersectDist o ray, some o, intersectPoint o ray,
          intersectNormal o ray⟩ ∧
      o ∈ scene.objects ∧ 0 < intersectDist o ray ∧
      (∀ o2 ∈ scene.objects, 0 < intersectDist o2 ray →
        intersectDist o ray ≤ intersectDist o2 ray) ∧
      ∃ l1 l2, scene.objects = l1 ++ o :: l2 ∧
        ∀ o2 ∈ l1, ¬(0 < intersectDist o2 ray ∧
          intersectDist o2 ray ≤ intersectDist o ray) := by
  obtain ⟨ostar, hstar⟩ := firstClosestHit_exists ray scene.objects hex
  obtain ⟨hmem, hpos⟩ := firstClosestHit_mem_pos ray scene.objects ostar hstar
  refine ⟨ostar, hstar, ?_, hmem, hpos,
    firstClosestHit_min ray scene.objects ostar hstar,
    firstClosestHit_earliest ray scene.objects ostar hstar⟩
  obtain ⟨objs, lights⟩ := scene
  cases objs with
  | nil =>
    obtain ⟨o2, ho2, _⟩ := hex
    exact absurd ho2 (List.not_mem_nil o2)
  | cons o os =>
    have hfold := foldl_raycastStep_char ray (o :: os) hok
      ⟨NO_INTERSECTION, none, u.point, u.normal, 0, 0⟩ (Or.inl rfl)
    rw [List.foldl_cons,
      ← raycast_head_step u ray o (hok o (List.mem_cons_self _ _)), hstar] at hfold
    simp only [Option.elim_some, eq_self_iff_true, true_or, if_true] at hfold
    show (⟨ray,
      (List.foldl (raycastStep ray)
        (if (o.Intersect ray 0 0).1 ≠ NO_INTERSECTION
         then (⟨(o.Intersect ray 0 0).1, some o, (o.Intersect ray 0 0).2.1,
           (o.Intersect ray 0 0).2.2, (o.Intersect ray 0 0).2.1,
           (o.Intersect ray 0 0).2.2⟩ : RcState)
         else ⟨(o.Intersect ray 0 0).1, none, u.point, u.normal,
           (o.Intersect ray 0 0).2.1, (o.Intersect ray 0 0).2.2⟩) os).t,
      _, _, _⟩ : IntersectionInfo) = _
    have h1 := congrArg (fun q => q.1) hfold
    have h2 := congrArg (fun q => q.2.1) hfold
    have h3 := congrArg (fun q => q.2.2.1) hfold
    have h4 := congrArg (fun q => q.2.2.2) hfold
    simp only [retOf, hitQuad] at h1 h2 h3 h4
    rw [IntersectionInfo.mk.injEq]
    exact ⟨rfl, h1, h2, h3, h4⟩

/-- C1 counterexample: in the two-sphere scene, the second sphere
intersects `rayZ` at the strictly positive distance 4 and the first
does not intersect it at all (its tangent quadratic root is -2, behind
the origin), so the claim requires `Raycast` to return the second
sphere at distance 4.  The code instead returns the first sphere with
`t = -2`: iteration 0 accepts any `t != -1` — including the negative
-2 produced by `Sphere::Intersect` — and later iterations never
replace a negative `ret.t`. -/
theorem C1_counterexample :
    intersectDist (SceneObject.sphere sphTangentBehind) rayZ = -2 ∧
    intersectDist (SceneObject.sphere sphFront) rayZ = 4 ∧
    (Raycast rcZero rayZ sceneTwoSpheres).obj =
      some (SceneObject.sphere sphTangentBehind) ∧
    (Raycast rcZero rayZ sceneTwoSpheres).t = -2 :=
  ⟨by decide, by decide, by decide, by decide⟩

/-- Witness for C1 on a one-sphere scene hit at distance 4. -/
theorem C1_witness :
    (∀ o ∈ sceneNoLights.objects, 0 < intersectDist o rayZ ∨
      intersectDist o rayZ = NO_INTERSECTION) ∧
    (∃ o ∈ sceneNoLights.objects, 0 < intersectDist o rayZ) ∧
    (∃ o, firstClosestHit rayZ sceneNoLights.objects = some o ∧
      Raycast rcZero rayZ sceneNoLights =
        ⟨rayZ, intersectDist o rayZ, some o, intersectPoint o rayZ,
          intersectNormal o rayZ⟩ ∧
      o ∈ sceneNoLights.objects ∧ 0 < intersectDist o rayZ ∧
      (∀ o2 ∈ sceneNoLights.objects, 0 < intersectDist o2 rayZ →
        intersectDist o rayZ ≤ intersectDist o2 rayZ) ∧
      ∃ l1 l2, sceneNoLights.objects = l1 ++ o :: l2 ∧
        ∀ o2 ∈ l1, ¬(0 < intersectDist o2 rayZ ∧
          intersectDist o2 rayZ ≤ intersectDist o rayZ)) :=
  ⟨by decide, by decide,
    C1_raycast_first_min rcZero rayZ sceneNoLights (by decide) (by decide)⟩
